import Mathlib

/-!
Shallow embedding of the task-lifecycle core of the repository:
`app/models/task.py` (the Task record), `app/repositories/task_repository.py`
(storage access), `app/services/task_service.py` (lifecycle service and the
concurrent batch processor), `app/schemas/task.py` (boundary validation) and
`app/routers/tasks.py` (the batch endpoint response).

Modelling conventions:
- the tasks table is a `List Task`; a service-level database handle (`DB`)
  additionally carries the autoincrement counter for storage-assigned ids;
- timestamps are natural numbers; `datetime.now(timezone.utc)` becomes an
  explicit `now` argument; the SQLAlchemy column-level `onupdate` hook on
  `updated_at` fires on every UPDATE the model issues;
- Python exceptions become `Except`; the batch unit's `try/except` handler
  becomes a total function returning the rolled-back state on error;
- `asyncio.gather` over the batch units is serialised into a left fold, which
  is a legal interleaving of the independent per-unit sessions: each unit's
  committed effect touches only the row with its own id, and the effects of
  distinct units commute, so the fold computes the joined outcome.
-/

namespace TaskApp

/-- `app/models/task.py`, class `TaskStatus`: allowed status values,
string constants in the source. -/
def TaskStatus.PENDING : String := "pending"

/-- `app/models/task.py`: the `in_progress` status constant. -/
def TaskStatus.IN_PROGRESS : String := "in_progress"

/-- `app/models/task.py`: the `completed` status constant. -/
def TaskStatus.COMPLETED : String := "completed"

/-- `app/models/task.py`, class `Task`: one row of the `tasks` table. -/
structure Task where
  id : Nat
  title : String
  description : Option String
  status : String
  priority : Int
  created_at : Nat
  updated_at : Nat
deriving DecidableEq, Repr

/-- The service-level view of the database: the `tasks` table plus the
autoincrement counter that assigns `Task.id` on insert. -/
structure DB where
  tasks : List Task
  nextId : Nat
deriving DecidableEq, Repr

/-- Storage autoincrement invariant: every stored id was assigned by a
previous value of the counter. -/
def dbWellFormed (db : DB) : Prop := ∀ t ∈ db.tasks, t.id < db.nextId

/-- `TaskRepository.get_by_id`: `SELECT ... WHERE Task.id == task_id`,
`scalar_one_or_none`. -/
def get_by_id (store : List Task) (task_id : Nat) : Option Task :=
  store.find? (fun t => t.id == task_id)

/-- The `if status_filter:` guard of `TaskRepository.get_all`: Python
truthiness, so `None` and the empty string both leave the query unfiltered. -/
def statusMatches (status_filter : Option String) (t : Task) : Bool :=
  match status_filter with
  | none => true
  | some s => if s = "" then true else t.status == s

/-- Descending `created_at` order used by `get_all`'s
`order_by(Task.created_at.desc())`. -/
def createdDesc (a b : Task) : Prop := b.created_at ≤ a.created_at

instance : DecidableRel createdDesc := fun a b =>
  inferInstanceAs (Decidable (b.created_at ≤ a.created_at))

instance : IsTotal Task createdDesc := ⟨fun a b => Nat.le_total b.created_at a.created_at⟩

instance : IsTrans Task createdDesc := ⟨fun _ _ _ h1 h2 => le_trans h2 h1⟩

/-- `TaskRepository.get_all`: the count query runs against the (optionally
filtered) full set, then ordering, offset and limit are applied to the row
query.  Returns `(rows, total)`. -/
def get_all (store : List Task) (skip limit : Nat) (status_filter : Option String) :
    List Task × Nat :=
  let filtered := store.filter (statusMatches status_filter)
  let total := filtered.length
  let ordered := List.insertionSort createdDesc filtered
  (((ordered.drop skip).take limit), total)

/-- `TaskRepository.update_status`: the single conditional UPDATE statement
`update(Task).where(Task.id == task_id).values(status=status)`; its Boolean
result is `rowcount > 0`.  The column-level `onupdate` hook refreshes
`updated_at` on every matched row. -/
def update_status (store : List Task) (now : Nat) (task_id : Nat) (status : String) :
    List Task × Bool :=
  let rowcount := (store.filter (fun t => t.id == task_id)).length
  (store.map (fun t =>
      if t.id == task_id then { t with status := status, updated_at := now } else t),
   decide (0 < rowcount))

/-- Whether the table holds a row with the given id (`rowcount > 0` for a
statement whose WHERE clause is `Task.id == task_id`). -/
def containsTask (store : List Task) (task_id : Nat) : Bool :=
  store.any (fun t => t.id == task_id)

/-- `app/schemas/task.py`, class `TaskCreate` after validation: `title`
(1-200 chars), optional `description`, `priority` (1-5, default 3 already
applied). -/
structure TaskCreate where
  title : String
  description : Option String
  priority : Int
deriving DecidableEq, Repr

/-- `app/schemas/task.py`, class `TaskUpdate` after validation: every field
optional; `none` means the field is absent from the patch. -/
structure TaskUpdate where
  title : Option String
  description : Option String
  status : Option String
  priority : Option Int
deriving DecidableEq, Repr

/-- Raw `TaskCreate` request payload before pydantic validation: `priority`
may be omitted. -/
structure TaskCreateInput where
  title : String
  description : Option String
  priority : Option Int
deriving DecidableEq, Repr

/-- Raw `TaskUpdate` request payload before pydantic validation. -/
structure TaskUpdateInput where
  title : Option String
  description : Option String
  status : Option String
  priority : Option Int
deriving DecidableEq, Repr

/-- `TaskStatusEnum` membership check performed by pydantic when parsing
`TaskUpdate.status`. -/
def validStatus (s : String) : Bool :=
  s == TaskStatus.PENDING || s == TaskStatus.IN_PROGRESS || s == TaskStatus.COMPLETED

/-- Pydantic validation of `TaskCreate` (`app/schemas/task.py` lines 24-36):
`title` length in [1,200]; `priority` defaults to 3 when omitted and must lie
in [1,5]. -/
def parseTaskCreate (i : TaskCreateInput) : Except String TaskCreate :=
  let p := i.priority.getD 3
  if (decide (1 ≤ i.title.length) && decide (i.title.length ≤ 200))
      && (decide (1 ≤ p) && decide (p ≤ 5))
  then .ok ⟨i.title, i.description, p⟩
  else .error "validation error"

/-- Pydantic validation of one optional `TaskUpdate.priority` field:
`ge=1, le=5` when present. -/
def priorityOk : Option Int → Bool
  | some p => decide (1 ≤ p) && decide (p ≤ 5)
  | none => true

/-- Pydantic validation of the optional `TaskUpdate.title` field:
length in [1,200] when present. -/
def titleOk : Option String → Bool
  | some t => decide (1 ≤ t.length) && decide (t.length ≤ 200)
  | none => true

/-- Pydantic validation of the optional `TaskUpdate.status` field:
must name a `TaskStatusEnum` member when present. -/
def statusOk : Option String → Bool
  | some s => validStatus s
  | none => true

/-- Pydantic validation of `TaskUpdate` (`app/schemas/task.py` lines 39-47). -/
def parseTaskUpdate (i : TaskUpdateInput) : Except String TaskUpdate :=
  if titleOk i.title && statusOk i.status && priorityOk i.priority
  then .ok ⟨i.title, i.description, i.status, i.priority⟩
  else .error "validation error"

/-- `app/services/task_service.py`: the `TaskNotFoundException` domain
error. -/
inductive ServiceError where
  | TaskNotFoundException
deriving DecidableEq, Repr

/-- `TaskRepository.create`: insert the row; storage assigns `id` from the
autoincrement counter and the column defaults set both timestamps to `now`. -/
def repoCreate (db : DB) (now : Nat) (title : String) (description : Option String)
    (status : String) (priority : Int) : DB × Task :=
  let t : Task :=
    { id := db.nextId, title := title, description := description, status := status,
      priority := priority, created_at := now, updated_at := now }
  ({ tasks := db.tasks ++ [t], nextId := db.nextId + 1 }, t)

/-- `TaskService.create_task`: builds the entity with `status = pending` and
the fields of the validated input, then delegates to `TaskRepository.create`.
No service-level check of `priority` is performed. -/
def create_task (db : DB) (now : Nat) (data : TaskCreate) : DB × Task :=
  repoCreate db now data.title data.description TaskStatus.PENDING data.priority

/-- `TaskService.get_task`: `get_by_id`, raising `TaskNotFoundException` when
the repository reports absence. -/
def get_task (db : DB) (task_id : Nat) : Except ServiceError Task :=
  match get_by_id db.tasks task_id with
  | none => .error .TaskNotFoundException
  | some t => .ok t

/-- `TaskService.list_tasks`: pure delegation to `TaskRepository.get_all`. -/
def list_tasks (db : DB) (skip limit : Nat) (status : Option String) : List Task × Nat :=
  get_all db.tasks skip limit status

/-- The field-application block of `TaskService.update_task`: each patch
field is copied onto the loaded entity only when present. -/
def applyPatch (t : Task) (p : TaskUpdate) : Task :=
  let t1 := match p.title with | some v => { t with title := v } | none => t
  let t2 := match p.description with | some v => { t1 with description := some v } | none => t1
  let t3 := match p.status with | some v => { t2 with status := v } | none => t2
  match p.priority with | some v => { t3 with priority := v } | none => t3

/-- `TaskRepository.update`: `flush()` then `refresh(task)`.  The flush
emits an UPDATE only when the mutated entity nets an actual change against
its committed state — the stored row with the same id, which is what the
session loaded; if every attribute is unchanged no statement is issued, so
the column-level `onupdate` hook does not fire and the row (including
`updated_at`) is left as it was.  When a change is netted, the UPDATE is
emitted and `onupdate` refreshes `updated_at` to `now`; `refresh` returns
the persisted state. -/
def repoUpdate (db : DB) (now : Nat) (task : Task) : DB × Task :=
  if get_by_id db.tasks task.id = some task then
    (db, task)
  else
    let persisted := { task with updated_at := now }
    ({ db with
        tasks := db.tasks.map (fun u => if u.id == persisted.id then persisted else u) },
     persisted)

/-- `TaskService.update_task`: load (or fail with `TaskNotFoundException`),
apply the present patch fields, persist via `TaskRepository.update`. -/
def update_task (db : DB) (now : Nat) (task_id : Nat) (data : TaskUpdate) :
    Except ServiceError (DB × Task) :=
  match get_task db task_id with
  | .error e => .error e
  | .ok task => .ok (repoUpdate db now (applyPatch task data))

/-- `TaskRepository.delete`: remove the row. -/
def repoDelete (db : DB) (task : Task) : DB :=
  { db with tasks := db.tasks.filter (fun u => !(u.id == task.id)) }

/-- `TaskService.delete_task`: load (or fail with `TaskNotFoundException`),
then `TaskRepository.delete`. -/
def delete_task (db : DB) (task_id : Nat) : Except ServiceError DB :=
  match get_task db task_id with
  | .error e => .error e
  | .ok task => .ok (repoDelete db task)

/-- The `asyncio.sleep(2)` delay of each batch unit
(`process_single_task`, `app/services/task_service.py` line 113). -/
def PROCESSING_DELAY : Nat := 2

/-- The `try` block of `process_single_task`: sleep, build a repository on
the unit's private session, issue `update_status(id, completed)`, commit.
`storageError` injects an arbitrary session/storage exception anywhere in
steps 2-4; the `Except` value is the raised exception. -/
def unit_attempt (store : List Task) (now : Nat) (task_id : Nat) (storageError : Bool) :
    Except String (List Task × Bool) :=
  if storageError then .error "storage failure"
  else .ok (update_status store now task_id TaskStatus.COMPLETED)

/-- `process_single_task` (the whole inner function including its `except`
handler): on success the private session is committed and the matched flag
returned; on any exception the private session is rolled back — the unit's
effects are discarded, the shared state is untouched — and `false` is
returned instead of re-raising. -/
def process_single_task (store : List Task) (now : Nat) (task_id : Nat)
    (storageError : Bool) : List Task × Bool :=
  match unit_attempt store now task_id storageError with
  | .ok r => r
  | .error _ => (store, false)

/-- One step of the serialised fan-out: run one unit against the committed
state and add 1 to the running count exactly when the unit returned `True`
(the `result is True` filter of the aggregation). -/
def batchStep (now : Nat) (acc : List Task × Nat) (u : Nat × Bool) : List Task × Nat :=
  let r := process_single_task acc.1 now u.1 u.2
  (r.1, acc.2 + if r.2 then 1 else 0)

/-- `TaskService.process_task_batch`: fan out one unit per requested id
(`units` pairs each id with its injected error flag), join all outcomes, and
count the units that returned `True`.  Returns the final committed table and
`processed_count`. -/
def process_task_batch (store : List Task) (now : Nat) (units : List (Nat × Bool)) :
    List Task × Nat :=
  units.foldl (batchStep now) (store, 0)

/-- The `process_batch` endpoint (`app/routers/tasks.py` lines 148-157):
returns `BatchProcessResponse` with `processed_count` from the service and
`total_requested = len(request.task_ids)`.  Result:
`(final table, processed_count, total_requested)`. -/
def process_batch (store : List Task) (now : Nat) (units : List (Nat × Bool)) :
    List Task × Nat × Nat :=
  let r := process_task_batch store now units
  (r.1, r.2, units.length)

/-!
Logical-duration semantics of the two `asyncio` primitives the batch
processor uses.  `await asyncio.sleep(d)` suspends the awaiting unit for `d`
seconds without holding any resource; the database statements are not
modelled as taking time.  `await asyncio.gather(cs)` starts all coroutines
concurrently and resumes the caller when the last one finishes, so its
elapsed time is the maximum of the members' elapsed times (fan-out/join).
-/

/-- Elapsed time of `await asyncio.gather(*coroutines)`: the caller suspends
until every member reaches a terminal state, so the join completes at the
maximum of the members' durations. -/
def gatherDuration (ds : List Nat) : Nat := ds.foldl max 0

/-- Elapsed time of one batch unit: its only suspension of nonzero duration
is `asyncio.sleep(PROCESSING_DELAY)`. -/
def unitDuration : Nat := PROCESSING_DELAY

/-- Elapsed time of `process_task_batch` on the given ids under the
concurrent (`asyncio.gather`) scheduling the source uses. -/
def batchDuration (task_ids : List Nat) : Nat :=
  gatherDuration (task_ids.map (fun _ => unitDuration))

/-- Elapsed time the same units would take run one after another (the
serialised schedule the spec contrasts with). -/
def serialDuration (task_ids : List Nat) : Nat :=
  (task_ids.map (fun _ => unitDuration)).sum

/-- A concrete table of three pending tasks with ids 1, 2, 3, used to
exercise the batch endpoint on three existing and two unknown ids. -/
def batchDemoStore : List Task :=
  [{ id := 1, title := "a", description := none, status := TaskStatus.PENDING,
     priority := 3, created_at := 0, updated_at := 0 },
   { id := 2, title := "b", description := none, status := TaskStatus.PENDING,
     priority := 3, created_at := 1, updated_at := 1 },
   { id := 3, title := "c", description := none, status := TaskStatus.PENDING,
     priority := 3, created_at := 2, updated_at := 2 }]

end TaskApp

namespace TaskApp

/-- The matched flag of `update_status` is `true` exactly when a row with the
requested id exists. -/
theorem update_status_snd (store : List Task) (now task_id : Nat) (status : String) :
    (update_status store now task_id status).2 = containsTask store task_id := by
  simp only [update_status, containsTask, decide_eq_true_eq]
  induction store with
  | nil => simp
  | cons t rest ih =>
      by_cases h : t.id == task_id <;>
        simp [List.filter_cons, List.any_cons, h, ih, Nat.succ_pos] at *

/-- `update_status` never adds or removes rows and never changes an id:
the presence of any id is preserved. -/
theorem update_status_preserves_contains (store : List Task) (now task_id : Nat)
    (status : String) (k : Nat) :
    containsTask (update_status store now task_id status).1 k = containsTask store k := by
  simp only [update_status, containsTask, List.any_map]
  congr 1
  funext t
  by_cases h : t.id == task_id <;> simp [h, Function.comp]

/-- `containsTask` holds exactly when some stored task carries the id. -/
theorem containsTask_iff (store : List Task) (task_id : Nat) :
    containsTask store task_id = true ↔ ∃ t ∈ store, t.id = task_id := by
  simp [containsTask, List.any_eq_true]

/-- The running count of the serialised fan-out: starting from any committed
table and any accumulator, the fold adds one per unit that did not raise and
whose id had a backing row.  (A failed unit leaves the table unchanged; a
successful unit preserves the set of ids, so presence can be read off the
initial table.) -/
theorem batch_count_fold (now : Nat) :
    ∀ (units : List (Nat × Bool)) (store : List Task) (cnt : Nat),
      (units.foldl (batchStep now) (store, cnt)).2
        = cnt + units.countP (fun u => !u.2 && containsTask store u.1)
  | [], _, _ => by simp
  | (i, e) :: rest, store, cnt => by
      cases e with
      | true =>
          have hstep : batchStep now (store, cnt) (i, true) = (store, cnt) := by
            simp [batchStep, process_single_task, unit_attempt]
          rw [List.foldl_cons, hstep, batch_count_fold now rest store cnt,
            List.countP_cons]
          simp
      | false =>
          have hstep : batchStep now (store, cnt) (i, false)
              = ((update_status store now i TaskStatus.COMPLETED).1,
                 cnt + if containsTask store i then 1 else 0) := by
            simp [batchStep, process_single_task, unit_attempt, update_status_snd]
          rw [List.foldl_cons, hstep,
            batch_count_fold now rest (update_status store now i TaskStatus.COMPLETED).1 _]
          have hpred : (fun u : Nat × Bool =>
              !u.2 && containsTask (update_status store now i TaskStatus.COMPLETED).1 u.1)
              = fun u : Nat × Bool => !u.2 && containsTask store u.1 := by
            funext u
            rw [update_status_preserves_contains]
          rw [hpred, List.countP_cons]
          by_cases h : containsTask store i <;> simp [h]
          omega

/-- Folding `max` over a constant nonempty list yields the constant joined
with the start value. -/
theorem foldl_max_const (c : Nat) :
    ∀ (l : List Nat) (a : Nat), l ≠ [] → (l.map (fun _ => c)).foldl max a = max a c
  | [], _, h => absurd rfl h
  | [_], _, _ => by simp
  | x :: y :: ys, a, _ => by
      rw [List.map_cons, List.foldl_cons,
        foldl_max_const c (y :: ys) (max a c) (by simp), max_assoc, max_self]

/-- Summing a constant over a list multiplies it by the length. -/
theorem sum_map_const (c : Nat) :
    ∀ l : List Nat, (l.map (fun _ => c)).sum = l.length * c
  | [] => by simp
  | x :: xs => by
      rw [List.map_cons, List.sum_cons, sum_map_const c xs, List.length_cons]
      ring

/-- C4: `update_status` performs the transition as the single conditional
statement `UPDATE tasks SET status = ? WHERE id = ?` — the definition issues
no prior SELECT of the row — and its Boolean result is `rowcount > 0`, which
holds exactly when a row with the requested id existed at the time of the
statement; `false` therefore means no such task existed. -/
theorem update_status_matched_iff :
    ∀ (store : List Task) (now task_id : Nat) (status : String),
      ((update_status store now task_id status).2 = true ↔ ∃ t ∈ store, t.id = task_id) ∧
      ((update_status store now task_id status).2 = false → ¬ ∃ t ∈ store, t.id = task_id) := by
  intro store now task_id status
  have hiff : (update_status store now task_id status).2 = true ↔ ∃ t ∈ store, t.id = task_id := by
    rw [update_status_snd]
    exact containsTask_iff store task_id
  refine ⟨hiff, fun hfalse hex => ?_⟩
  rw [hiff.mpr hex] at hfalse
  exact Bool.noConfusion hfalse

/-- Closed instance of `update_status_matched_iff`: on a one-row table the
statement matches and reports `true`. -/
theorem update_status_matched_iff_witness :
    (update_status [(⟨1, "t", none, TaskStatus.PENDING, 3, 0, 0⟩ : Task)]
      5 1 TaskStatus.COMPLETED).2 = true :=
  (update_status_matched_iff _ 5 1 TaskStatus.COMPLETED).1.mpr
    ⟨⟨1, "t", none, TaskStatus.PENDING, 3, 0, 0⟩, List.mem_singleton.mpr rfl, rfl⟩

/-- C10: for an existing task of any current status — pending, in_progress
or already completed — `update_status(id, completed)` matches, overwrites
the status to `completed` and reports success, and the batch unit built on
it returns `True`; no definition in the core compares the previous status
before writing, so no lifecycle-order check exists anywhere on this path. -/
theorem update_status_no_lifecycle_check :
    ∀ (store : List Task) (now task_id : Nat) (t : Task), t ∈ store → t.id = task_id →
      (update_status store now task_id TaskStatus.COMPLETED).2 = true ∧
      (process_single_task store now task_id false).2 = true ∧
      ∀ u ∈ (update_status store now task_id TaskStatus.COMPLETED).1,
        u.id = task_id → u.status = TaskStatus.COMPLETED := by
  intro store now task_id t ht hid
  have hmatched : (update_status store now task_id TaskStatus.COMPLETED).2 = true := by
    rw [update_status_snd]
    exact (containsTask_iff store task_id).mpr ⟨t, ht, hid⟩
  refine ⟨hmatched, ?_, ?_⟩
  · simpa [process_single_task, unit_attempt] using hmatched
  · intro u hu huid
    simp only [update_status, List.mem_map] at hu
    obtain ⟨orig, _, horig⟩ := hu
    by_cases hcase : orig.id == task_id
    · rw [← horig]
      simp [hcase]
    · rw [← horig] at huid ⊢
      rw [if_neg hcase] at huid ⊢
      exact absurd (by simpa using huid) (by simpa using hcase)

/-- Closed instance of `update_status_no_lifecycle_check` on a task that is
already `completed`: the unit still matches and reports success, showing the
absence of a pending-before-completed check. -/
theorem update_status_no_lifecycle_check_witness :
    (update_status [(⟨7, "w", none, TaskStatus.COMPLETED, 2, 0, 0⟩ : Task)]
      4 7 TaskStatus.COMPLETED).2 = true ∧
    (process_single_task [(⟨7, "w", none, TaskStatus.COMPLETED, 2, 0, 0⟩ : Task)]
      4 7 false).2 = true :=
  ⟨(update_status_no_lifecycle_check _ 4 7 ⟨7, "w", none, TaskStatus.COMPLETED, 2, 0, 0⟩
      (List.mem_singleton.mpr rfl) rfl).1,
   (update_status_no_lifecycle_check _ 4 7 ⟨7, "w", none, TaskStatus.COMPLETED, 2, 0, 0⟩
      (List.mem_singleton.mpr rfl) rfl).2.1⟩

/-- C2: for every input and every assignment of injected per-unit errors the
batch is a total function — the unit's `except` handler and the
`return_exceptions=True` join convert every raise into a recorded failure,
so nothing propagates to the caller — the reported count never exceeds the
number of requested units, and a failing unit's private session is rolled
back: its step returns the shared table unchanged and records `false`,
leaving sibling units unaffected. -/
theorem processBatch_error_containment :
    ∀ (store : List Task) (now : Nat) (units : List (Nat × Bool)),
      (process_task_batch store now units).2 ≤ units.length ∧
      ∀ task_id : Nat, process_single_task store now task_id true = (store, false) := by
  intro store now units
  constructor
  · rw [process_task_batch, batch_count_fold now units store 0, Nat.zero_add]
    exact List.countP_le_length _
  · intro task_id
    simp [process_single_task, unit_attempt]

/-- C3: under the concurrent `asyncio.gather` scheduling of the source, a
batch of any positive number of units completes in exactly one unit's fixed
processing delay — the caller suspends until the last unit finishes (join),
and the sleeps overlap — whereas running the same units serially takes the
number of units times that delay. -/
theorem processBatch_parallel_duration :
    ∀ task_ids : List Nat, task_ids ≠ [] →
      batchDuration task_ids = PROCESSING_DELAY ∧
      serialDuration task_ids = task_ids.length * PROCESSING_DELAY := by
  intro task_ids h
  constructor
  · rw [batchDuration, gatherDuration, foldl_max_const unitDuration task_ids 0 h]
    rfl
  · rw [serialDuration, sum_map_const unitDuration task_ids]
    rfl

/-- Closed instance of `processBatch_parallel_duration` at a batch of size
3: its duration equals the single-unit delay, one third of the serial
time. -/
theorem processBatch_parallel_duration_witness :
    batchDuration [1, 2, 3] = PROCESSING_DELAY ∧
    serialDuration [1, 2, 3] = 3 * PROCESSING_DELAY :=
  processBatch_parallel_duration [1, 2, 3] (by simp)

/-- C1: for every input sequence of units, `processed_count` equals the
number of units that did not raise and whose `update_status(id, completed)`
matched a row (for error-free units, exactly the units whose id has a
backing row in the table), and `total_requested` equals the length of the
input sequence, duplicates included.  In particular, for three existing
pending tasks and two unknown ids (no injected errors), the endpoint
reports `processed_count = 3`, `total_requested = 5`, and every row of the
three-task table afterwards reads back `status = completed`. -/
theorem processBatch_count_and_total :
    (∀ (store : List Task) (now : Nat) (units : List (Nat × Bool)),
        (process_batch store now units).2.1
          = units.countP (fun u => !u.2 && containsTask store u.1) ∧
        (process_batch store now units).2.2 = units.length) ∧
    (process_batch batchDemoStore 9 ([1, 2, 3, 100, 200].map (fun i => (i, false)))).2.1 = 3 ∧
    (process_batch batchDemoStore 9 ([1, 2, 3, 100, 200].map (fun i => (i, false)))).2.2 = 5 ∧
    ∀ t ∈ (process_batch batchDemoStore 9 ([1, 2, 3, 100, 200].map (fun i => (i, false)))).1,
      t.status = TaskStatus.COMPLETED := by
  refine ⟨fun store now units => ⟨?_, rfl⟩, by decide, by decide, by decide⟩
  show (process_task_batch store now units).2 = _
  rw [process_task_batch, batch_count_fold now units store 0, Nat.zero_add]

/-- C5 counterexample: the `if status_filter:` guard uses Python truthiness,
so a present-but-empty filter (`status = ""`) leaves the query unfiltered:
`get_all` returns the pending task even though its status differs from the
supplied filter value, refuting "restricted to the given status whenever the
filter is present". -/
theorem get_all_empty_filter_counterexample :
    (get_all [(⟨1, "a", none, TaskStatus.PENDING, 3, 0, 0⟩ : Task)] 0 10 (some "")).1
      = [(⟨1, "a", none, TaskStatus.PENDING, 3, 0, 0⟩ : Task)] ∧
    TaskStatus.PENDING ≠ "" := by decide

/-- C5 (amended): for every `skip`, `limit` and optional `statusFilter`,
`get_all` returns tasks restricted to the given status whenever the filter
is present and non-empty (the empty string is falsy in the source's guard
and is treated as no filter), ordered by `created_at` descending, together
with a total computed over the full (optionally filtered) set before
`skip`/`limit` are applied — the total does not depend on the pagination
window. -/
theorem get_all_filter_order_count :
    ∀ (store : List Task) (skip limit : Nat) (status_filter : Option String),
      (∀ s, status_filter = some s → s ≠ "" →
        ∀ t ∈ (get_all store skip limit status_filter).1, t.status = s) ∧
      (get_all store skip limit status_filter).2
        = (store.filter (statusMatches status_filter)).length ∧
      List.Sorted createdDesc (get_all store skip limit status_filter).1 := by
  intro store skip limit status_filter
  refine ⟨?_, rfl, ?_⟩
  · intro s hf hs t ht
    have hsub : List.Sublist (get_all store skip limit status_filter).1
        (List.insertionSort createdDesc (store.filter (statusMatches status_filter))) :=
      (List.take_sublist _ _).trans (List.drop_sublist _ _)
    have hmem : t ∈ List.insertionSort createdDesc (store.filter (statusMatches status_filter)) :=
      hsub.mem ht
    have hmemf : t ∈ store.filter (statusMatches status_filter) :=
      (List.perm_insertionSort createdDesc _).mem_iff.mp hmem
    have hmatch : statusMatches status_filter t = true := (List.mem_filter.mp hmemf).2
    rw [hf] at hmatch
    simp only [statusMatches, if_neg hs] at hmatch
    exact eq_of_beq hmatch
  · have hsorted : List.Sorted createdDesc
        (List.insertionSort createdDesc (store.filter (statusMatches status_filter))) :=
      List.sorted_insertionSort createdDesc _
    exact hsorted.sublist ((List.take_sublist _ _).trans (List.drop_sublist _ _))

/-- Closed instance of `get_all_filter_order_count`: on a two-task table a
`pending` filter produces total 1, and the pending task that the query
returns indeed has status `pending`. -/
theorem get_all_filter_order_count_witness :
    (get_all [(⟨1, "p", none, TaskStatus.PENDING, 3, 0, 0⟩ : Task),
              (⟨2, "q", none, TaskStatus.COMPLETED, 3, 5, 5⟩ : Task)] 0 10
        (some TaskStatus.PENDING)).2 = 1 ∧
    (⟨1, "p", none, TaskStatus.PENDING, 3, 0, 0⟩ : Task).status = TaskStatus.PENDING :=
  ⟨((get_all_filter_order_count [(⟨1, "p", none, TaskStatus.PENDING, 3, 0, 0⟩ : Task),
        (⟨2, "q", none, TaskStatus.COMPLETED, 3, 5, 5⟩ : Task)] 0 10
        (some TaskStatus.PENDING)).2.1).trans (by decide),
   (get_all_filter_order_count [(⟨1, "p", none, TaskStatus.PENDING, 3, 0, 0⟩ : Task),
        (⟨2, "q", none, TaskStatus.COMPLETED, 3, 5, 5⟩ : Task)] 0 10
        (some TaskStatus.PENDING)).1
     TaskStatus.PENDING rfl (by decide) _ (by decide)⟩

/-- The patch application block copies `title` only when present. -/
theorem applyPatch_title (t : Task) (p : TaskUpdate) :
    (applyPatch t p).title = p.title.getD t.title := by
  rcases p with ⟨pt, pd, ps, pp⟩
  cases pt <;> cases pd <;> cases ps <;> cases pp <;> rfl

/-- The patch application block copies `description` only when present. -/
theorem applyPatch_description (t : Task) (p : TaskUpdate) :
    (applyPatch t p).description = (p.description.map some).getD t.description := by
  rcases p with ⟨pt, pd, ps, pp⟩
  cases pt <;> cases pd <;> cases ps <;> cases pp <;> rfl

/-- The patch application block copies `status` only when present. -/
theorem applyPatch_status (t : Task) (p : TaskUpdate) :
    (applyPatch t p).status = p.status.getD t.status := by
  rcases p with ⟨pt, pd, ps, pp⟩
  cases pt <;> cases pd <;> cases ps <;> cases pp <;> rfl

/-- The patch application block copies `priority` only when present. -/
theorem applyPatch_priority (t : Task) (p : TaskUpdate) :
    (applyPatch t p).priority = p.priority.getD t.priority := by
  rcases p with ⟨pt, pd, ps, pp⟩
  cases pt <;> cases pd <;> cases ps <;> cases pp <;> rfl

/-- The patch application block never touches `id`. -/
theorem applyPatch_id (t : Task) (p : TaskUpdate) : (applyPatch t p).id = t.id := by
  rcases p with ⟨pt, pd, ps, pp⟩
  cases pt <;> cases pd <;> cases ps <;> cases pp <;> rfl

/-- The patch application block never touches `created_at`. -/
theorem applyPatch_created_at (t : Task) (p : TaskUpdate) :
    (applyPatch t p).created_at = t.created_at := by
  rcases p with ⟨pt, pd, ps, pp⟩
  cases pt <;> cases pd <;> cases ps <;> cases pp <;> rfl

/-- The patch application block never touches `updated_at` (only the
storage-level `onupdate` hook does). -/
theorem applyPatch_updated_at (t : Task) (p : TaskUpdate) :
    (applyPatch t p).updated_at = t.updated_at := by
  rcases p with ⟨pt, pd, ps, pp⟩
  cases pt <;> cases pd <;> cases ps <;> cases pp <;> rfl

/-- A successful `get_task` pins the repository lookup and the returned
task's id. -/
theorem get_task_ok_find (db : DB) (task_id : Nat) (old : Task)
    (h : get_task db task_id = .ok old) :
    get_by_id db.tasks task_id = some old ∧ old.id = task_id := by
  cases hfb : get_by_id db.tasks task_id with
  | none => simp [get_task, hfb] at h
  | some t =>
      have ht : t = old := by simpa [get_task, hfb] using h
      subst ht
      refine ⟨rfl, ?_⟩
      have := List.find?_some hfb
      simpa using this

/-- Whichever branch the flush takes, the persisted entity's `priority` is
the one carried by the flushed in-memory state. -/
theorem repoUpdate_snd_priority (db : DB) (now : Nat) (task : Task) :
    (repoUpdate db now task).2.priority = task.priority := by
  simp only [repoUpdate]
  split <;> rfl

/-- C6 counterexample: a priority-only patch that writes the task's current
priority (3 onto 3) succeeds at time 5, yet the flush nets no attribute
change, so no UPDATE is emitted, the `onupdate` hook does not fire, and the
returned task's `updated_at` is still 0 — it did not strictly increase on
this successful update. -/
theorem update_task_no_net_change_counterexample :
    update_task ⟨[⟨1, "t", none, TaskStatus.PENDING, 3, 0, 0⟩], 2⟩ 5 1
        ⟨none, none, none, some 3⟩
      = .ok (⟨[⟨1, "t", none, TaskStatus.PENDING, 3, 0, 0⟩], 2⟩,
             ⟨1, "t", none, TaskStatus.PENDING, 3, 0, 0⟩) ∧
    ¬ ((⟨1, "t", none, TaskStatus.PENDING, 3, 0, 0⟩ : Task).updated_at
        < (⟨1, "t", none, TaskStatus.PENDING, 3, 0, 0⟩ : Task).updated_at) :=
  ⟨rfl, by decide⟩

/-- C6 (amended): for every existing task and every patch, `update_task`
copies onto the stored task exactly the fields present in the patch and
leaves every unset field untouched — in particular a priority-only patch
leaves `title`, `description` and `status` unchanged — and `created_at` is
never modified.  `updated_at` strictly increases on the successful update
exactly when the patched entity nets an actual change against the stored
row (given the clock advanced): then the flush emits the UPDATE and the
`onupdate` hook stamps the current time; when the patch nets no change —
every field unset, or each present field equal to its current value — no
statement is emitted and `updated_at` stays what it was. -/
theorem update_task_partial_frame :
    ∀ (db : DB) (now task_id : Nat) (patch : TaskUpdate) (old : Task),
      get_task db task_id = .ok old → old.updated_at < now →
      ∃ db2 t2, update_task db now task_id patch = .ok (db2, t2) ∧
        t2.title = patch.title.getD old.title ∧
        t2.description = (patch.description.map some).getD old.description ∧
        t2.status = patch.status.getD old.status ∧
        t2.priority = patch.priority.getD old.priority ∧
        t2.created_at = old.created_at ∧
        (applyPatch old patch ≠ old → old.updated_at < t2.updated_at) ∧
        (applyPatch old patch = old → t2.updated_at = old.updated_at) := by
  intro db now task_id patch old hget hlt
  obtain ⟨hfb, hid⟩ := get_task_ok_find db task_id old hget
  have hfind : get_by_id db.tasks old.id = some old := by
    rw [hid]
    exact hfb
  by_cases hch : applyPatch old patch = old
  · refine ⟨db, applyPatch old patch, ?_, applyPatch_title old patch,
      applyPatch_description old patch, applyPatch_status old patch,
      applyPatch_priority old patch, applyPatch_created_at old patch,
      fun hne => absurd hch hne, fun _ => applyPatch_updated_at old patch⟩
    have hcond : get_by_id db.tasks (applyPatch old patch).id
        = some (applyPatch old patch) := by
      rw [hch]
      exact hfind
    simp only [update_task, hget]
    simp [repoUpdate, hcond]
  · refine ⟨{ db with tasks := db.tasks.map (fun u =>
        if u.id == (applyPatch old patch).id
        then { applyPatch old patch with updated_at := now } else u) },
      { applyPatch old patch with updated_at := now }, ?_,
      applyPatch_title old patch, applyPatch_description old patch,
      applyPatch_status old patch, applyPatch_priority old patch,
      applyPatch_created_at old patch,
      fun _ => hlt, fun heq => absurd heq hch⟩
    have hcond : ¬ (get_by_id db.tasks (applyPatch old patch).id
        = some (applyPatch old patch)) := by
      rw [applyPatch_id, hfind]
      intro hc
      exact hch (Option.some.inj hc).symm
    simp only [update_task, hget]
    simp [repoUpdate, hcond]

/-- Closed instance of `update_task_partial_frame`: patching only
`priority := 4` at time 5 on a task of priority 2 last written at time 0
keeps title, description and status; this patch nets a change, so the
strict-increase branch applies and the no-change branch is vacuous. -/
theorem update_task_partial_frame_witness :
    (0 : Nat) < 5 ∧
    ∃ db2 t2,
      update_task ⟨[⟨1, "t", none, TaskStatus.PENDING, 2, 0, 0⟩], 2⟩ 5 1
          ⟨none, none, none, some 4⟩ = .ok (db2, t2) ∧
      t2.title = "t" ∧ t2.description = none ∧ t2.status = TaskStatus.PENDING ∧
      t2.priority = 4 ∧ t2.created_at = 0 ∧
      (applyPatch ⟨1, "t", none, TaskStatus.PENDING, 2, 0, 0⟩ ⟨none, none, none, some 4⟩
          ≠ ⟨1, "t", none, TaskStatus.PENDING, 2, 0, 0⟩ → (0 : Nat) < t2.updated_at) ∧
      (applyPatch ⟨1, "t", none, TaskStatus.PENDING, 2, 0, 0⟩ ⟨none, none, none, some 4⟩
          = ⟨1, "t", none, TaskStatus.PENDING, 2, 0, 0⟩ → t2.updated_at = 0) :=
  ⟨by decide,
   update_task_partial_frame ⟨[⟨1, "t", none, TaskStatus.PENDING, 2, 0, 0⟩], 2⟩ 5 1
     ⟨none, none, none, some 4⟩ ⟨1, "t", none, TaskStatus.PENDING, 2, 0, 0⟩
     rfl (by decide)⟩

/-- A lookup for an id carried by none of the leading rows lands on the
freshly appended row. -/
theorem find_append_last (i : Nat) (t : Task) :
    ∀ l : List Task, (∀ u ∈ l, u.id ≠ i) →
      (l ++ [t]).find? (fun u => u.id == i) = [t].find? (fun u => u.id == i)
  | [], _ => rfl
  | a :: l, h => by
      have ha : (a.id == i) = false := by
        simpa using h a (List.mem_cons_self a l)
      rw [List.cons_append, List.find?_cons, ha]
      exact find_append_last i t l (fun u hu => h u (List.mem_cons_of_mem a hu))

/-- C7 round trip: creating a task and reading back the storage-assigned id
yields that very task, with the title the caller supplied; after a
successful delete the same id fails with `TaskNotFoundException`; and a
lookup of an id with no backing row always fails with
`TaskNotFoundException` and never returns a task. -/
theorem crud_round_trip :
    (∀ (db : DB) (now : Nat) (data : TaskCreate), dbWellFormed db →
      get_task (create_task db now data).1 (create_task db now data).2.id
          = .ok (create_task db now data).2 ∧
      (create_task db now data).2.title = data.title) ∧
    (∀ (db : DB) (task_id : Nat) (db2 : DB), delete_task db task_id = .ok db2 →
      get_task db2 task_id = .error .TaskNotFoundException) ∧
    (∀ (db : DB) (task_id : Nat), (∀ t ∈ db.tasks, t.id ≠ task_id) →
      get_task db task_id = .error .TaskNotFoundException) := by
  refine ⟨?_, ?_, ?_⟩
  · intro db now data hwf
    refine ⟨?_, rfl⟩
    have hfresh : ∀ u ∈ db.tasks, u.id ≠ db.nextId := fun u hu =>
      Nat.ne_of_lt (hwf u hu)
    have hfind : (db.tasks ++ [(create_task db now data).2]).find?
        (fun u => u.id == db.nextId) = some (create_task db now data).2 := by
      rw [find_append_last db.nextId _ db.tasks hfresh, List.find?_cons]
      simp [create_task, repoCreate]
    simp only [get_task, get_by_id]
    show (match (db.tasks ++ [(create_task db now data).2]).find?
        (fun u => u.id == db.nextId) with
      | none => Except.error ServiceError.TaskNotFoundException
      | some t => Except.ok t) = _
    rw [hfind]
  · intro db task_id db2 hdel
    cases hfb : get_by_id db.tasks task_id with
    | none => simp [delete_task, get_task, hfb] at hdel
    | some task =>
        have hid : task.id = task_id := by
          have := List.find?_some hfb
          simpa using this
        have hdb2 : db2 = repoDelete db task := by
          simp [delete_task, get_task, hfb] at hdel
          exact hdel.symm
        have hnone : get_by_id db2.tasks task_id = none := by
          rw [hdb2]
          apply List.find?_eq_none.mpr
          intro u hu
          have hukeep : ¬ u.id = task.id := by
            have := (List.mem_filter.mp hu).2
            simpa using this
          intro hcontra
          exact hukeep ((by simpa using hcontra : u.id = task_id).trans hid.symm)
        simp [get_task, hnone]
  · intro db task_id hno
    have hnone : get_by_id db.tasks task_id = none := by
      apply List.find?_eq_none.mpr
      intro u hu
      simpa using hno u hu
    simp [get_task, hnone]

/-- Closed instance of `crud_round_trip`: create on the empty database and
read the new id back; delete the only row of a one-task database and see the
id fail; look up an id that was never created and see it fail. -/
theorem crud_round_trip_witness :
    get_task (create_task ⟨[], 1⟩ 0 ⟨"hello", none, 3⟩).1
        (create_task ⟨[], 1⟩ 0 ⟨"hello", none, 3⟩).2.id
      = .ok (create_task ⟨[], 1⟩ 0 ⟨"hello", none, 3⟩).2 ∧
    (create_task ⟨[], 1⟩ 0 ⟨"hello", none, 3⟩).2.title = "hello" ∧
    get_task (⟨[], 2⟩ : DB) 1 = .error .TaskNotFoundException ∧
    get_task (⟨[], 1⟩ : DB) 42 = .error .TaskNotFoundException :=
  ⟨(crud_round_trip.1 ⟨[], 1⟩ 0 ⟨"hello", none, 3⟩ (by intro t ht; simp at ht)).1,
   (crud_round_trip.1 ⟨[], 1⟩ 0 ⟨"hello", none, 3⟩ (by intro t ht; simp at ht)).2,
   crud_round_trip.2.1 ⟨[⟨1, "d", none, TaskStatus.PENDING, 3, 0, 0⟩], 2⟩ 1 ⟨[], 2⟩ rfl,
   crud_round_trip.2.2 ⟨[], 1⟩ 42 (by intro t ht; simp at ht)⟩

/-- C8: every task the service creates has status `pending`, and when the
request omitted `priority` the boundary default 3 is what the service
stores. -/
theorem create_defaults :
    ∀ (db : DB) (now : Nat) (i : TaskCreateInput) (c : TaskCreate),
      parseTaskCreate i = .ok c →
      (create_task db now c).2.status = TaskStatus.PENDING ∧
      (i.priority = none → (create_task db now c).2.priority = 3) := by
  intro db now i c hp
  have hc : c.priority = i.priority.getD 3 := by
    simp only [parseTaskCreate] at hp
    split at hp
    · injection hp with h
      rw [← h]
    · exact absurd hp (by simp)
  refine ⟨rfl, fun hnone => ?_⟩
  show c.priority = 3
  rw [hc, hnone]
  rfl

/-- Closed instance of `create_defaults`: a request with no `priority` field
parses to priority 3 and is stored as a pending task with priority 3. -/
theorem create_defaults_witness :
    (create_task ⟨[], 1⟩ 0 ⟨"x", none, 3⟩).2.status = TaskStatus.PENDING ∧
    (create_task ⟨[], 1⟩ 0 ⟨"x", none, 3⟩).2.priority = 3 :=
  ⟨(create_defaults ⟨[], 1⟩ 0 ⟨"x", none, none⟩ ⟨"x", none, 3⟩ rfl).1,
   (create_defaults ⟨[], 1⟩ 0 ⟨"x", none, none⟩ ⟨"x", none, 3⟩ rfl).2 rfl⟩

/-- C9 counterexample: `TaskService.create_task` performs no defensive check
of `priority` — handed a value of 7 it stores a task whose priority is 7,
outside [1,5], so the service layer does not itself enforce the range. -/
theorem service_priority_unchecked_counterexample :
    (create_task ⟨[], 1⟩ 0 ⟨"x", none, 7⟩).2.priority = 7 ∧
    (create_task ⟨[], 1⟩ 0 ⟨"x", none, 7⟩).2 ∈ (create_task ⟨[], 1⟩ 0 ⟨"x", none, 7⟩).1.tasks ∧
    ¬ ((7 : Int) ≤ 5) := by decide

/-- C9 (amended): `priority` ∈ [1,5] is enforced only at the boundary — the
pydantic schemas reject out-of-range values (`ge=1, le=5`, default 3) — and
the service passes priority through unchecked, so every task reachable
through boundary-validated create and update inputs has priority in [1,5],
while the service itself performs no defensive re-validation. -/
theorem priority_range_boundary_only :
    (∀ (db : DB) (now : Nat) (i : TaskCreateInput) (c : TaskCreate),
        parseTaskCreate i = .ok c →
        1 ≤ (create_task db now c).2.priority ∧ (create_task db now c).2.priority ≤ 5) ∧
    (∀ (db db2 : DB) (now task_id : Nat) (i : TaskUpdateInput) (p : TaskUpdate)
        (old t2 : Task),
        parseTaskUpdate i = .ok p → get_task db task_id = .ok old →
        1 ≤ old.priority → old.priority ≤ 5 →
        update_task db now task_id p = .ok (db2, t2) →
        1 ≤ t2.priority ∧ t2.priority ≤ 5) := by
  constructor
  · intro db now i c hp
    simp only [parseTaskCreate] at hp
    split at hp
    · rename_i hcond
      injection hp with h
      have hbounds : 1 ≤ i.priority.getD 3 ∧ i.priority.getD 3 ≤ 5 := by
        simp only [Bool.and_eq_true, decide_eq_true_eq] at hcond
        exact hcond.2
      show 1 ≤ c.priority ∧ c.priority ≤ 5
      rw [← h]
      exact hbounds
    · exact absurd hp (by simp)
  · intro db db2 now task_id i p old t2 hpu hget h1 h5 hupd
    have hp : p.priority = i.priority ∧ priorityOk i.priority = true := by
      simp only [parseTaskUpdate] at hpu
      split at hpu
      · rename_i hcond
        injection hpu with h
        simp only [Bool.and_eq_true] at hcond
        exact ⟨by rw [← h], hcond.2⟩
      · exact absurd hpu (by simp)
    have ht2 : t2 = (repoUpdate db now (applyPatch old p)).2 := by
      simp only [update_task, hget] at hupd
      injection hupd with h
      have := congrArg Prod.snd h
      simpa using this.symm
    have hpr : t2.priority = p.priority.getD old.priority := by
      rw [ht2, repoUpdate_snd_priority, applyPatch_priority]
    rw [hpr, hp.1]
    cases hi : i.priority with
    | none => exact ⟨h1, h5⟩
    | some v =>
        have := hp.2
        rw [hi] at this
        simp only [priorityOk, Bool.and_eq_true, decide_eq_true_eq] at this
        simpa using this

/-- Closed instance of `priority_range_boundary_only`: a validated create
with priority 5 and a validated priority-only update to 2 both store a
priority inside [1,5]. -/
theorem priority_range_boundary_only_witness :
    (1 ≤ (create_task ⟨[], 1⟩ 0 ⟨"x", none, 5⟩).2.priority ∧
      (create_task ⟨[], 1⟩ 0 ⟨"x", none, 5⟩).2.priority ≤ 5) ∧
    (1 ≤ (⟨1, "t", none, TaskStatus.PENDING, 2, 0, 5⟩ : Task).priority ∧
      (⟨1, "t", none, TaskStatus.PENDING, 2, 0, 5⟩ : Task).priority ≤ 5) :=
  ⟨priority_range_boundary_only.1 ⟨[], 1⟩ 0 ⟨"x", none, some 5⟩ ⟨"x", none, 5⟩ rfl,
   priority_range_boundary_only.2 ⟨[⟨1, "t", none, TaskStatus.PENDING, 3, 0, 0⟩], 2⟩
     ⟨[⟨1, "t", none, TaskStatus.PENDING, 2, 0, 5⟩], 2⟩ 5 1 ⟨none, none, none, some 2⟩
     ⟨none, none, none, some 2⟩ ⟨1, "t", none, TaskStatus.PENDING, 3, 0, 0⟩
     ⟨1, "t", none, TaskStatus.PENDING, 2, 0, 5⟩ rfl rfl (by decide) (by decide) rfl⟩

end TaskApp
